import Mathlib

set_option maxHeartbeats 1000000

/-!
Shallow embedding of the route53-subjack scanner (`route53-subjack/main.go`):
the data model, zone enumeration, record-set pagination, the concurrent scan
dispatcher, and the per-record classifier/reporter, together with a model of
the provider's paginated listing API, and theorems checking the
specification's claims against these definitions.
-/

/-- A DNS hosted zone as returned by the provider (`route53.HostedZone`,
with `Config.PrivateZone` flattened into `isPrivate`). -/
structure HostedZone where
  id : String
  name : String
  isPrivate : Bool
deriving DecidableEq

/-- A DNS resource record set (`route53.ResourceRecordSet`): name, record
type, and the optional routing-policy set identifier. -/
structure ResourceRecordSet where
  name : String
  rtype : String
  setIdentifier : Option String
deriving DecidableEq

/-- A fingerprint signature (`subjack.Fingerprints`): the vulnerable
service's name plus its matching pattern. -/
structure Fingerprints where
  service : String
  pattern : String
deriving DecidableEq

/-- Severity levels of the logrus records the scanner emits. -/
inductive Level where
  | debug
  | info
  | warn
  | error
  | fatal
deriving DecidableEq

/-- One emitted log record: severity plus rendered message. -/
structure LogRecord where
  level : Level
  msg : String
deriving DecidableEq

/-- ASCII lowering of one character (`strings.ToLower` acts per rune; the
service names involved are ASCII). -/
def lowerChar (c : Char) : Char :=
  if 65 ≤ c.toNat && c.toNat ≤ 90 then Char.ofNat (c.toNat + 32) else c

/-- Go's `strings.ToLower` on ASCII strings. -/
def lowerStr (s : String) : String :=
  ⟨s.data.map lowerChar⟩

/-- Go's `strings.TrimSuffix`: drop the suffix when present, else return the
string unchanged. -/
def trimSuffix (s suf : String) : String :=
  if suf.data.isSuffixOf s.data then ⟨s.data.take (s.data.length - suf.data.length)⟩ else s

/-- Modelled from the spec: `subjack.Identify`, the external Record
Fingerprint Oracle (the `subjack` library is an external collaborator, not
part of this repository). Per the spec it returns the name of the matched
service when some signature in the supplied set fits the hostname, and
the empty string (not vulnerable) otherwise; the matching test itself is
opaque and is therefore a parameter. -/
def identify (fpMatch : String → Fingerprints → Bool) (domain : String)
    (fingerprints : List Fingerprints) : String :=
  match fingerprints.find? (fpMatch domain) with
  | some fp => fp.service
  | none => ""

/-- Embedding of `checkRecordSet` (main.go:423-435): trim the trailing dot, query the
Oracle, and emit an info-level record for a vulnerable service, a
debug-level "ok" record when verbose, or nothing. The returned list is the
sequence of log records this unit of work emits. -/
def checkRecordSet (fpMatch : String → Fingerprints → Bool) (verbose : Bool)
    (fingerprints : List Fingerprints) (subdomain : String) : List LogRecord :=
  let trimmed := trimSuffix subdomain "."
  let service := identify fpMatch trimmed fingerprints
  if service ≠ "" then
    [⟨.info, trimmed ++ " is pointing to a vulnerable " ++ lowerStr service ++ " service.\n"⟩]
  else if verbose then
    [⟨.debug, subdomain ++ " is ok\n"⟩]
  else
    []

/-- Error from the record-listing call (`ListResourceRecordSets`); the
spec's `PaginationError`. -/
structure PaginationError where
  msg : String
deriving DecidableEq

/-- Error from the zone-listing call (`ListHostedZones`); the spec's
`EnumerationError`. -/
structure EnumerationError where
  msg : String
deriving DecidableEq

/-- Embedding of `checkHostedZone` (main.go:402-421), as the sequence of log records the
zone's unit of work emits. `recordsResult` is the outcome of
`listRecordSets` for this zone; the code binds its error to `_`, so on
failure it proceeds with a nil slice. `config` is the parsed content of
`./fingerprints.json`; the code discards both the read and the unmarshal
error, so on failure the fingerprint slice stays nil. -/
def checkHostedZone (fpMatch : String → Fingerprints → Bool) (verbose : Bool)
    (recordsResult : Except PaginationError (List ResourceRecordSet))
    (config : Option (List Fingerprints)) : List LogRecord :=
  let recordSets := match recordsResult with
    | .ok rs => rs
    | .error _ => []
  let fingerprints := config.getD []
  recordSets.flatMap (fun subdomain => checkRecordSet fpMatch verbose fingerprints subdomain.name)

/-- Fixture for one profile's scan: the outcome of zone enumeration, the
outcome of record listing per zone id, and the parsed fingerprint file
(`none` models a failed read or parse). -/
structure ProfileFixture where
  zonesResult : Except EnumerationError (List HostedZone)
  records : String → Except PaginationError (List ResourceRecordSet)
  config : Option (List Fingerprints)

/-- The dispatch filter of `checkSubdomainTakeovers` (main.go:383-388): a
zone gets a unit of work exactly when its `PrivateZone` flag is false. -/
def dispatchedZones (zones : List HostedZone) : List HostedZone :=
  zones.filter (fun zone => !zone.isPrivate)

/-- The log records emitted by all zone units of one profile run, in
dispatch order (the concurrent interleaving only permutes this). -/
def profileOutput (fpMatch : String → Fingerprints → Bool) (verbose : Bool)
    (fx : ProfileFixture) (zones : List HostedZone) : List LogRecord :=
  (dispatchedZones zones).flatMap
    (fun zone => checkHostedZone fpMatch verbose (fx.records zone.id) fx.config)

/-- Outcome of one profile's run: `completed` carries the emitted records;
`fatal` models `logrus.Fatal`, which logs at fatal level and exits the
process with status 1. -/
inductive RunOutcome where
  | completed (out : List LogRecord)
  | fatal (out : List LogRecord)
deriving DecidableEq

/-- Embedding of `checkSubdomainTakeovers` (main.go:363-390): on an enumeration error
`logrus.Fatal` fires (fatal log record, process exit); otherwise every
public zone is dispatched and the run completes after the two-level join. -/
def checkSubdomainTakeovers (fpMatch : String → Fingerprints → Bool) (verbose : Bool)
    (fx : ProfileFixture) : RunOutcome :=
  match fx.zonesResult with
  | .error e => .fatal [⟨.fatal, e.msg⟩]
  | .ok hostedZones => .completed (profileOutput fpMatch verbose fx hostedZones)

/-- Embedding of `main` (main.go:352-361): iterate the comma-separated profiles in
order; `logrus.Fatal` inside a profile's run exits the whole process with
status 1, so later profiles never run. Returns the overall emitted records
and the process exit status. -/
def runMain (fpMatch : String → Fingerprints → Bool) (verbose : Bool) :
    List ProfileFixture → List LogRecord × Nat
  | [] => ([], 0)
  | fx :: rest =>
    match checkSubdomainTakeovers fpMatch verbose fx with
    | .completed out =>
      let (out', code) := runMain fpMatch verbose rest
      (out ++ out', code)
    | .fatal out => (out, 1)

/-- Boolean lexicographic order on character lists (by code point). -/
def charsLE : List Char → List Char → Bool
  | [], _ => true
  | _ :: _, [] => false
  | a :: as, b :: bs =>
    a.toNat < b.toNat || (a.toNat == b.toNat && charsLE as bs)

/-- Boolean order on strings (DNS names and types compare bytewise). -/
def strLE (a b : String) : Bool :=
  charsLE a.data b.data

/-- Strict variant of `strLE`. -/
def strLT (a b : String) : Bool :=
  !(strLE b a)

/-- Order on optional routing identifiers: records without an identifier
sort before records with one. -/
def optIdLE : Option String → Option String → Bool
  | none, _ => true
  | some _, none => false
  | some a, some b => strLE a b

/-- Input of the provider's record-listing call
(`route53.ListResourceRecordSetsInput`): the continuation fields. -/
structure ListRRSInput where
  startRecordName : Option String
  startRecordType : Option String
  startRecordIdentifier : Option String

/-- One response page of the provider's record-listing call
(`route53.ListResourceRecordSetsOutput`). -/
structure RRPage where
  resourceRecordSets : List ResourceRecordSet
  isTruncated : Bool
  nextRecordName : Option String
  nextRecordType : Option String
  nextRecordIdentifier : Option String

/-- Does record `r` lie at or after the position named by the cursor
fields of `input`? Route53 positions the listing at the first record whose
(name, type, identifier) key is at least the supplied cursor; fields left
out of the request do not constrain the position. -/
def keyGE (input : ListRRSInput) (r : ResourceRecordSet) : Bool :=
  match input.startRecordName with
  | none => true
  | some n =>
    match input.startRecordType with
    | none => strLE n r.name
    | some t =>
      strLT n r.name ||
        (n == r.name && (strLT t r.rtype ||
          (t == r.rtype && optIdLE input.startRecordIdentifier r.setIdentifier)))

/-- Model of the provider serving one page of `ListResourceRecordSets` for
a zone whose records are sorted by (name, type, identifier): skip to the
cursor position, return up to `pageSize` records, and when truncated
report the full continuation key of the first record of the remainder. -/
def serveRecordSets (zoneRecords : List ResourceRecordSet) (pageSize : Nat)
    (input : ListRRSInput) : RRPage :=
  let rest := zoneRecords.dropWhile (fun r => !keyGE input r)
  match rest.drop pageSize with
  | [] => ⟨rest.take pageSize, false, none, none, none⟩
  | r :: _ => ⟨rest.take pageSize, true, some r.name, some r.rtype, r.setIdentifier⟩

/-- The `for isTruncated` loop of `listRecordSets` (main.go:450-461): the
code resubmits with `StartRecordName` ONLY, dropping the type and routing
identifier continuation fields of the previous response. `fuel` bounds the
iterations so the embedding stays total; `none` means the loop was still
truncated when fuel ran out. -/
def listRecordSetsLoop (zoneRecords : List ResourceRecordSet) (pageSize : Nat) :
    Nat → RRPage → List ResourceRecordSet → Option (List ResourceRecordSet)
  | fuel, result, acc =>
    if !result.isTruncated then some acc
    else
      match fuel with
      | 0 => none
      | f + 1 =>
        let input : ListRRSInput := ⟨result.nextRecordName, none, none⟩
        let next := serveRecordSets zoneRecords pageSize input
        listRecordSetsLoop zoneRecords pageSize f next (acc ++ next.resourceRecordSets)

/-- Embedding of `listRecordSets` (main.go:437-469): first page with no cursor, then the
continuation loop, then the CNAME filter. -/
def listRecordSets (zoneRecords : List ResourceRecordSet) (pageSize fuel : Nat) :
    Option (List ResourceRecordSet) :=
  let result := serveRecordSets zoneRecords pageSize ⟨none, none, none⟩
  (listRecordSetsLoop zoneRecords pageSize fuel result result.resourceRecordSets).map
    (fun recordSets => recordSets.filter (fun r => r.rtype == "CNAME"))

/-- Modelled from the spec (§4.2 `listCNAMERecords`): the same pagination
loop but resubmitting the FULL cursor — continuation name, type, and
routing identifier — as the spec mandates (the corrected behavior). -/
def listCNAMERecordsSpecLoop (zoneRecords : List ResourceRecordSet) (pageSize : Nat) :
    Nat → RRPage → List ResourceRecordSet → Option (List ResourceRecordSet)
  | fuel, result, acc =>
    if !result.isTruncated then some acc
    else
      match fuel with
      | 0 => none
      | f + 1 =>
        let input : ListRRSInput :=
          ⟨result.nextRecordName, result.nextRecordType, result.nextRecordIdentifier⟩
        let next := serveRecordSets zoneRecords pageSize input
        listCNAMERecordsSpecLoop zoneRecords pageSize f next (acc ++ next.resourceRecordSets)

/-- Modelled from the spec (§4.2): `listCNAMERecords` with the full
pagination cursor. -/
def listCNAMERecordsSpec (zoneRecords : List ResourceRecordSet) (pageSize fuel : Nat) :
    Option (List ResourceRecordSet) :=
  let result := serveRecordSets zoneRecords pageSize ⟨none, none, none⟩
  (listCNAMERecordsSpecLoop zoneRecords pageSize fuel result result.resourceRecordSets).map
    (fun recordSets => recordSets.filter (fun r => r.rtype == "CNAME"))

/-- One response page of the provider's zone-listing call
(`route53.ListHostedZonesOutput`). -/
structure HZPage where
  hostedZones : List HostedZone
  isTruncated : Bool

/-- Model of the provider serving the first page of `ListHostedZones` for
an account: up to `pageSize` zones, with the truncation flag set when more
remain. -/
def serveHostedZones (accountZones : List HostedZone) (pageSize : Nat) : HZPage :=
  ⟨accountZones.take pageSize, decide (pageSize < accountZones.length)⟩

/-- Embedding of `listHostedZones` (main.go:392-400): a single `ListHostedZones` call
with empty input; the response's `IsTruncated`/`NextMarker` are never
inspected, so only the first page is returned. -/
def listHostedZones (accountZones : List HostedZone) (pageSize : Nat) : List HostedZone :=
  (serveHostedZones accountZones pageSize).hostedZones

/-- Program counter of the main unit (`checkSubdomainTakeovers`): spawning
zone units, blocked in `wg.Wait()`, or returned. -/
inductive MainPC where
  | spawn (k : Nat)
  | waiting
  | done
deriving DecidableEq

/-- State of one zone's unit of work (`checkHostedZone`): not yet spawned,
spawning record units (k spawned so far), blocked in `wg2.Wait()`, or done
(after `wg.Done()`). -/
inductive ZoneSt where
  | unspawned
  | active (k : Nat)
  | zwaiting
  | zdone
deriving DecidableEq

/-- Global state of the two-level concurrent dispatcher: the outer
WaitGroup counter `wg`, one inner WaitGroup counter `wg2 z` per zone, the
per-record completion flags, and `log`, the (zone, record) indices of the
record units that have finished, most recent first. Zones are indexed
0..Z-1 in dispatch order, records 0..R z-1 in dispatch order. -/
structure DState where
  mainPC : MainPC
  wg : Nat
  zoneSt : Nat → ZoneSt
  wg2 : Nat → Nat
  recDone : Nat → Nat → Bool
  log : List (Nat × Nat)

/-- Number of record units zone z has spawned so far. -/
def spawnedRecs (R : Nat → Nat) (s : DState) (z : Nat) : Nat :=
  match s.zoneSt z with
  | .unspawned => 0
  | .active k => k
  | .zwaiting => R z
  | .zdone => R z

/-- Number of zone units the main unit has spawned so far. -/
def spawnedZones (Z : Nat) (s : DState) : Nat :=
  match s.mainPC with
  | .spawn k => k
  | .waiting => Z
  | .done => Z

/-- Initial state: nothing spawned, both WaitGroup levels at zero. -/
def initState : DState where
  mainPC := .spawn 0
  wg := 0
  zoneSt := fun _ => .unspawned
  wg2 := fun _ => 0
  recDone := fun _ _ => false
  log := []

/-- One interleaving step of the scan over Z zones, zone z holding R z
records, following main.go exactly: the main unit runs `wg.Add(1)` and
spawns each zone unit in turn (main.go:385-386), then blocks in
`wg.Wait()` (main.go:389), returning only once the counter is zero; each
zone unit runs `wg2.Add(1)` and spawns each of its record units
(main.go:415-416), blocks in `wg2.Wait()` (main.go:419) and then runs
`wg.Done()` (main.go:420); each record unit ends with `wg2.Done()`
(main.go:434), at which point its report lands in the shared sink. -/
inductive Step (Z : Nat) (R : Nat → Nat) : DState → DState → Prop where
  | mainSpawn (s : DState) (k : Nat) :
      s.mainPC = .spawn k → k < Z →
      Step Z R s { s with
        mainPC := .spawn (k + 1)
        wg := s.wg + 1
        zoneSt := Function.update s.zoneSt k (.active 0) }
  | mainToWait (s : DState) :
      s.mainPC = .spawn Z →
      Step Z R s { s with mainPC := .waiting }
  | mainFinish (s : DState) :
      s.mainPC = .waiting → s.wg = 0 →
      Step Z R s { s with mainPC := .done }
  | zoneSpawn (s : DState) (z k : Nat) :
      s.zoneSt z = .active k → k < R z →
      Step Z R s { s with
        zoneSt := Function.update s.zoneSt z (.active (k + 1))
        wg2 := Function.update s.wg2 z (s.wg2 z + 1) }
  | zoneToWait (s : DState) (z : Nat) :
      s.zoneSt z = .active (R z) →
      Step Z R s { s with zoneSt := Function.update s.zoneSt z .zwaiting }
  | zoneFinish (s : DState) (z : Nat) :
      s.zoneSt z = .zwaiting → s.wg2 z = 0 →
      Step Z R s { s with
        zoneSt := Function.update s.zoneSt z .zdone
        wg := s.wg - 1 }
  | recFinish (s : DState) (z r : Nat) :
      r < spawnedRecs R s z → s.recDone z r = false →
      Step Z R s { s with
        recDone := Function.update s.recDone z (Function.update (s.recDone z) r true)
        wg2 := Function.update s.wg2 z (s.wg2 z - 1)
        log := (z, r) :: s.log }

/-- States reachable from the initial state by interleaving steps. -/
inductive Reachable (Z : Nat) (R : Nat → Nat) : DState → Prop where
  | init : Reachable Z R initState
  | step {s s' : DState} : Reachable Z R s → Step Z R s s' → Reachable Z R s'

/-- Inductive invariant of the dispatcher: each WaitGroup counter equals
the number of spawned-but-unfinished units at its level, unspawned units
are untouched, and the sink holds exactly one entry per finished record
unit. -/
structure DInv (Z : Nat) (R : Nat → Nat) (s : DState) : Prop where
  spawnLe : spawnedZones Z s ≤ Z
  zoneFresh : ∀ z, spawnedZones Z s ≤ z → s.zoneSt z = .unspawned
  wgCount : s.wg = ((Finset.range (spawnedZones Z s)).filter (fun z => s.zoneSt z ≠ .zdone)).card
  wg2Count : ∀ z, s.wg2 z =
    ((Finset.range (spawnedRecs R s z)).filter (fun r => s.recDone z r = false)).card
  recFresh : ∀ z r, spawnedRecs R s z ≤ r → s.recDone z r = false
  activeLe : ∀ z k, s.zoneSt z = .active k → k ≤ R z
  zdoneWg2 : ∀ z, s.zoneSt z = .zdone → s.wg2 z = 0
  doneWg : s.mainPC = .done → s.wg = 0
  logCount : ∀ p : Nat × Nat,
    Multiset.count p (s.log : Multiset (Nat × Nat)) = if s.recDone p.1 p.2 then 1 else 0

/-- Falsifying the predicate at one satisfied point of the range drops the
filtered cardinality by exactly one. -/
lemma card_filter_update_false (p q : Nat → Prop) [DecidablePred p] [DecidablePred q]
    (n z : Nat) (hz : z < n) (hpz : p z) (hqz : ¬ q z)
    (hother : ∀ x, x ≠ z → (p x ↔ q x)) :
    ((Finset.range n).filter q).card = ((Finset.range n).filter p).card - 1 := by
  have he : (Finset.range n).filter q = ((Finset.range n).filter p).erase z := by
    ext x
    simp only [Finset.mem_filter, Finset.mem_erase, Finset.mem_range]
    constructor
    · rintro ⟨hxn, hqx⟩
      rcases eq_or_ne x z with rfl | hne
      · exact absurd hqx hqz
      · exact ⟨hne, hxn, (hother x hne).2 hqx⟩
    · rintro ⟨hne, hxn, hpx⟩
      exact ⟨hxn, (hother x hne).1 hpx⟩
  rw [he, Finset.card_erase_of_mem (Finset.mem_filter.2 ⟨Finset.mem_range.2 hz, hpz⟩)]

/-- Extending the range by one satisfied point raises the filtered
cardinality by exactly one. -/
lemma card_filter_succ_true (p : Nat → Prop) [DecidablePred p] (k : Nat) (hk : p k) :
    ((Finset.range (k + 1)).filter p).card = ((Finset.range k).filter p).card + 1 := by
  have hnot : k ∉ (Finset.range k).filter p := by
    intro hmem
    exact absurd (Finset.mem_range.1 (Finset.filter_subset _ _ hmem)) (lt_irrefl k)
  rw [Finset.range_succ, Finset.filter_insert, if_pos hk, Finset.card_insert_of_not_mem hnot]

/-- The dispatcher invariant holds in the initial state. -/
lemma dinv_init (Z : Nat) (R : Nat → Nat) : DInv Z R initState := by
  refine ⟨?_, ?_, ?_, ?_, ?_, ?_, ?_, ?_, ?_⟩ <;>
    simp [initState, spawnedZones, spawnedRecs]


/-- The dispatcher invariant is preserved by every interleaving step. -/
lemma dinv_step {Z : Nat} {R : Nat → Nat} {s s' : DState}
    (h : DInv Z R s) (hstep : Step Z R s s') : DInv Z R s' := by
  obtain ⟨spawnLe, zoneFresh, wgCount, wg2Count, recFresh, activeLe, zdoneWg2, doneWg, logCount⟩ := h
  cases hstep with
  | mainSpawn k hpc hk =>
    have hsz : spawnedZones Z s = k := by simp [spawnedZones, hpc]
    have hzk : s.zoneSt k = .unspawned := zoneFresh k (le_of_eq hsz)
    have hsr : ∀ z, spawnedRecs R { s with
        mainPC := .spawn (k + 1), wg := s.wg + 1,
        zoneSt := Function.update s.zoneSt k (.active 0) } z = spawnedRecs R s z := by
      intro z
      by_cases hzeq : z = k
      · subst hzeq
        simp [spawnedRecs, Function.update_same, hzk]
      · simp [spawnedRecs, Function.update_noteq hzeq]
    refine ⟨?_, ?_, ?_, ?_, ?_, ?_, ?_, ?_, ?_⟩
    · show k + 1 ≤ Z
      exact hk
    · intro z hz
      have hz' : k + 1 ≤ z := hz
      show Function.update s.zoneSt k (ZoneSt.active 0) z = ZoneSt.unspawned
      rw [Function.update_noteq (by omega : z ≠ k)]
      exact zoneFresh z (by omega)
    · show s.wg + 1 = ((Finset.range (k + 1)).filter
        (fun z => Function.update s.zoneSt k (ZoneSt.active 0) z ≠ ZoneSt.zdone)).card
      rw [card_filter_succ_true _ k
        (by rw [Function.update_same]; exact fun hc => ZoneSt.noConfusion hc)]
      have he : ((Finset.range k).filter
          (fun z => Function.update s.zoneSt k (ZoneSt.active 0) z ≠ ZoneSt.zdone)) =
          ((Finset.range k).filter (fun z => s.zoneSt z ≠ ZoneSt.zdone)) := by
        refine Finset.filter_congr ?_
        intro x hx
        rw [Function.update_noteq (Nat.ne_of_lt (Finset.mem_range.1 hx))]
      rw [he, ← hsz, ← wgCount]
    · intro z
      rw [hsr z]
      exact wg2Count z
    · intro z r hr
      rw [hsr z] at hr
      exact recFresh z r hr
    · intro z k0 hzk0
      have hzk0' : Function.update s.zoneSt k (ZoneSt.active 0) z = ZoneSt.active k0 := hzk0
      by_cases hzeq : z = k
      · subst hzeq
        rw [Function.update_same] at hzk0'
        injection hzk0' with h0
        omega
      · rw [Function.update_noteq hzeq] at hzk0'
        exact activeLe z k0 hzk0'
    · intro z hzd
      have hzd' : Function.update s.zoneSt k (ZoneSt.active 0) z = ZoneSt.zdone := hzd
      by_cases hzeq : z = k
      · subst hzeq
        rw [Function.update_same] at hzd'
        exact ZoneSt.noConfusion hzd'
      · rw [Function.update_noteq hzeq] at hzd'
        exact zdoneWg2 z hzd'
    · intro hd
      exact MainPC.noConfusion hd
    · exact logCount
  | mainToWait hpc =>
    have hsz : spawnedZones Z s = Z := by simp [spawnedZones, hpc]
    refine ⟨?_, ?_, ?_, ?_, ?_, ?_, ?_, ?_, ?_⟩
    · show Z ≤ Z
      exact le_rfl
    · intro z hz
      have hz' : Z ≤ z := hz
      exact zoneFresh z (by omega)
    · show s.wg = ((Finset.range Z).filter (fun z => s.zoneSt z ≠ ZoneSt.zdone)).card
      rw [← hsz]
      exact wgCount
    · exact wg2Count
    · exact recFresh
    · exact activeLe
    · exact zdoneWg2
    · intro hd
      exact MainPC.noConfusion hd
    · exact logCount
  | mainFinish hpc hwg =>
    have hsz : spawnedZones Z s = Z := by simp [spawnedZones, hpc]
    refine ⟨?_, ?_, ?_, ?_, ?_, ?_, ?_, ?_, ?_⟩
    · show Z ≤ Z
      exact le_rfl
    · intro z hz
      have hz' : Z ≤ z := hz
      exact zoneFresh z (by omega)
    · show s.wg = ((Finset.range Z).filter (fun z => s.zoneSt z ≠ ZoneSt.zdone)).card
      rw [← hsz]
      exact wgCount
    · exact wg2Count
    · exact recFresh
    · exact activeLe
    · exact zdoneWg2
    · intro _
      exact hwg
    · exact logCount
  | zoneSpawn z k hz hk =>
    have hsrz : spawnedRecs R s z = k := by simp [spawnedRecs, hz]
    refine ⟨?_, ?_, ?_, ?_, ?_, ?_, ?_, ?_, ?_⟩
    · exact spawnLe
    · intro z' hz'
      have hz'' : spawnedZones Z s ≤ z' := hz'
      show Function.update s.zoneSt z (ZoneSt.active (k + 1)) z' = ZoneSt.unspawned
      by_cases hzeq : z' = z
      · subst hzeq
        have hcon := zoneFresh z' hz''
        rw [hz] at hcon
        exact ZoneSt.noConfusion hcon
      · rw [Function.update_noteq hzeq]
        exact zoneFresh z' hz''
    · show s.wg = ((Finset.range (spawnedZones Z s)).filter
        (fun x => Function.update s.zoneSt z (ZoneSt.active (k + 1)) x ≠ ZoneSt.zdone)).card
      have he : ((Finset.range (spawnedZones Z s)).filter
          (fun x => Function.update s.zoneSt z (ZoneSt.active (k + 1)) x ≠ ZoneSt.zdone)) =
          ((Finset.range (spawnedZones Z s)).filter (fun x => s.zoneSt x ≠ ZoneSt.zdone)) := by
        refine Finset.filter_congr ?_
        intro x _
        by_cases hxeq : x = z
        · subst hxeq
          rw [Function.update_same, hz]
          exact iff_of_true (fun hc => ZoneSt.noConfusion hc) (fun hc => ZoneSt.noConfusion hc)
        · rw [Function.update_noteq hxeq]
      rw [he]
      exact wgCount
    · intro z'
      rcases eq_or_ne z' z with rfl | hne
      · show Function.update s.wg2 z' (s.wg2 z' + 1) z' = _
        rw [Function.update_same]
        have hnew : spawnedRecs R { s with
            zoneSt := Function.update s.zoneSt z' (.active (k + 1)),
            wg2 := Function.update s.wg2 z' (s.wg2 z' + 1) } z' = k + 1 := by
          simp [spawnedRecs, Function.update_same]
        rw [hnew]
        show s.wg2 z' + 1 = ((Finset.range (k + 1)).filter
          (fun x => s.recDone z' x = false)).card
        rw [card_filter_succ_true _ k (recFresh z' k (le_of_eq hsrz)), ← hsrz, ← wg2Count z']
      · show Function.update s.wg2 z (s.wg2 z + 1) z' = _
        rw [Function.update_noteq hne]
        have hnew : spawnedRecs R { s with
            zoneSt := Function.update s.zoneSt z (.active (k + 1)),
            wg2 := Function.update s.wg2 z (s.wg2 z + 1) } z' = spawnedRecs R s z' := by
          simp [spawnedRecs, Function.update_noteq hne]
        rw [hnew]
        show s.wg2 z' = ((Finset.range (spawnedRecs R s z')).filter
          (fun x => s.recDone z' x = false)).card
        exact wg2Count z'
    · intro z' x hx
      rcases eq_or_ne z' z with rfl | hne
      · have hnew : spawnedRecs R { s with
            zoneSt := Function.update s.zoneSt z' (.active (k + 1)),
            wg2 := Function.update s.wg2 z' (s.wg2 z' + 1) } z' = k + 1 := by
          simp [spawnedRecs, Function.update_same]
        rw [hnew] at hx
        exact recFresh z' x (by omega)
      · have hnew : spawnedRecs R { s with
            zoneSt := Function.update s.zoneSt z (.active (k + 1)),
            wg2 := Function.update s.wg2 z (s.wg2 z + 1) } z' = spawnedRecs R s z' := by
          simp [spawnedRecs, Function.update_noteq hne]
        rw [hnew] at hx
        exact recFresh z' x hx
    · intro z' k0 hzk0
      have hzk0' : Function.update s.zoneSt z (ZoneSt.active (k + 1)) z' = ZoneSt.active k0 := hzk0
      by_cases hzeq : z' = z
      · subst hzeq
        rw [Function.update_same] at hzk0'
        injection hzk0' with h0
        omega
      · rw [Function.update_noteq hzeq] at hzk0'
        exact activeLe z' k0 hzk0'
    · intro z' hzd
      have hzd' : Function.update s.zoneSt z (ZoneSt.active (k + 1)) z' = ZoneSt.zdone := hzd
      by_cases hzeq : z' = z
      · subst hzeq
        rw [Function.update_same] at hzd'
        exact ZoneSt.noConfusion hzd'
      · rw [Function.update_noteq hzeq] at hzd'
        show Function.update s.wg2 z (s.wg2 z + 1) z' = 0
        rw [Function.update_noteq hzeq]
        exact zdoneWg2 z' hzd'
    · exact doneWg
    · exact logCount
  | zoneToWait z hz =>
    have hsr : ∀ z', spawnedRecs R { s with
        zoneSt := Function.update s.zoneSt z .zwaiting } z' = spawnedRecs R s z' := by
      intro z'
      by_cases hzeq : z' = z
      · subst hzeq
        simp [spawnedRecs, Function.update_same, hz]
      · simp [spawnedRecs, Function.update_noteq hzeq]
    refine ⟨?_, ?_, ?_, ?_, ?_, ?_, ?_, ?_, ?_⟩
    · exact spawnLe
    · intro z' hz'
      have hz'' : spawnedZones Z s ≤ z' := hz'
      show Function.update s.zoneSt z ZoneSt.zwaiting z' = ZoneSt.unspawned
      by_cases hzeq : z' = z
      · subst hzeq
        have hcon := zoneFresh z' hz''
        rw [hz] at hcon
        exact ZoneSt.noConfusion hcon
      · rw [Function.update_noteq hzeq]
        exact zoneFresh z' hz''
    · show s.wg = ((Finset.range (spawnedZones Z s)).filter
        (fun x => Function.update s.zoneSt z ZoneSt.zwaiting x ≠ ZoneSt.zdone)).card
      have he : ((Finset.range (spawnedZones Z s)).filter
          (fun x => Function.update s.zoneSt z ZoneSt.zwaiting x ≠ ZoneSt.zdone)) =
          ((Finset.range (spawnedZones Z s)).filter (fun x => s.zoneSt x ≠ ZoneSt.zdone)) := by
        refine Finset.filter_congr ?_
        intro x _
        by_cases hxeq : x = z
        · subst hxeq
          rw [Function.update_same, hz]
          exact iff_of_true (fun hc => ZoneSt.noConfusion hc) (fun hc => ZoneSt.noConfusion hc)
        · rw [Function.update_noteq hxeq]
      rw [he]
      exact wgCount
    · intro z'
      rw [hsr z']
      exact wg2Count z'
    · intro z' x hx
      rw [hsr z'] at hx
      exact recFresh z' x hx
    · intro z' k0 hzk0
      have hzk0' : Function.update s.zoneSt z ZoneSt.zwaiting z' = ZoneSt.active k0 := hzk0
      by_cases hzeq : z' = z
      · subst hzeq
        rw [Function.update_same] at hzk0'
        exact ZoneSt.noConfusion hzk0'
      · rw [Function.update_noteq hzeq] at hzk0'
        exact activeLe z' k0 hzk0'
    · intro z' hzd
      have hzd' : Function.update s.zoneSt z ZoneSt.zwaiting z' = ZoneSt.zdone := hzd
      by_cases hzeq : z' = z
      · subst hzeq
        rw [Function.update_same] at hzd'
        exact ZoneSt.noConfusion hzd'
      · rw [Function.update_noteq hzeq] at hzd'
        exact zdoneWg2 z' hzd'
    · exact doneWg
    · exact logCount
  | zoneFinish z hz hwg2 =>
    have hzlt : z < spawnedZones Z s := by
      by_contra hcon
      have hfr := zoneFresh z (by omega)
      rw [hz] at hfr
      exact ZoneSt.noConfusion hfr
    have hsr : ∀ z', spawnedRecs R { s with
        zoneSt := Function.update s.zoneSt z .zdone, wg := s.wg - 1 } z' =
        spawnedRecs R s z' := by
      intro z'
      by_cases hzeq : z' = z
      · subst hzeq
        simp [spawnedRecs, Function.update_same, hz]
      · simp [spawnedRecs, Function.update_noteq hzeq]
    refine ⟨?_, ?_, ?_, ?_, ?_, ?_, ?_, ?_, ?_⟩
    · exact spawnLe
    · intro z' hz'
      have hz'' : spawnedZones Z s ≤ z' := hz'
      show Function.update s.zoneSt z ZoneSt.zdone z' = ZoneSt.unspawned
      by_cases hzeq : z' = z
      · subst hzeq
        have hcon := zoneFresh z' hz''
        rw [hz] at hcon
        exact ZoneSt.noConfusion hcon
      · rw [Function.update_noteq hzeq]
        exact zoneFresh z' hz''
    · show s.wg - 1 = ((Finset.range (spawnedZones Z s)).filter
        (fun x => Function.update s.zoneSt z ZoneSt.zdone x ≠ ZoneSt.zdone)).card
      rw [card_filter_update_false (fun x => s.zoneSt x ≠ ZoneSt.zdone)
        (fun x => Function.update s.zoneSt z ZoneSt.zdone x ≠ ZoneSt.zdone)
        (spawnedZones Z s) z hzlt
        (by show s.zoneSt z ≠ ZoneSt.zdone
            rw [hz]; exact fun hc => ZoneSt.noConfusion hc)
        (by show ¬Function.update s.zoneSt z ZoneSt.zdone z ≠ ZoneSt.zdone
            rw [Function.update_same]; exact fun hc => hc rfl)
        (by intro x hx
            show s.zoneSt x ≠ ZoneSt.zdone ↔
              Function.update s.zoneSt z ZoneSt.zdone x ≠ ZoneSt.zdone
            rw [Function.update_noteq hx]), ← wgCount]
    · intro z'
      rw [hsr z']
      exact wg2Count z'
    · intro z' x hx
      rw [hsr z'] at hx
      exact recFresh z' x hx
    · intro z' k0 hzk0
      have hzk0' : Function.update s.zoneSt z ZoneSt.zdone z' = ZoneSt.active k0 := hzk0
      by_cases hzeq : z' = z
      · subst hzeq
        rw [Function.update_same] at hzk0'
        exact ZoneSt.noConfusion hzk0'
      · rw [Function.update_noteq hzeq] at hzk0'
        exact activeLe z' k0 hzk0'
    · intro z' hzd
      by_cases hzeq : z' = z
      · subst hzeq
        exact hwg2
      · have hzd' : Function.update s.zoneSt z ZoneSt.zdone z' = ZoneSt.zdone := hzd
        rw [Function.update_noteq hzeq] at hzd'
        exact zdoneWg2 z' hzd'
    · intro hd
      have h0 := doneWg hd
      show s.wg - 1 = 0
      omega
    · exact logCount
  | recFinish z r hr hrd =>
    have hsr : ∀ z', spawnedRecs R { s with
        recDone := Function.update s.recDone z (Function.update (s.recDone z) r true),
        wg2 := Function.update s.wg2 z (s.wg2 z - 1),
        log := (z, r) :: s.log } z' = spawnedRecs R s z' := fun _ => rfl
    refine ⟨?_, ?_, ?_, ?_, ?_, ?_, ?_, ?_, ?_⟩
    · exact spawnLe
    · exact zoneFresh
    · exact wgCount
    · intro z'
      rcases eq_or_ne z' z with rfl | hne
      · show Function.update s.wg2 z' (s.wg2 z' - 1) z' = ((Finset.range (spawnedRecs R s z')).filter
          (fun x => Function.update s.recDone z' (Function.update (s.recDone z') r true) z' x
            = false)).card
        rw [Function.update_same, Function.update_same]
        rw [card_filter_update_false (fun x => s.recDone z' x = false)
          (fun x => Function.update (s.recDone z') r true x = false)
          (spawnedRecs R s z') r hr hrd
          (by show ¬Function.update (s.recDone z') r true r = false
              rw [Function.update_same]; exact fun hc => Bool.noConfusion hc)
          (by intro x hx
              show s.recDone z' x = false ↔ Function.update (s.recDone z') r true x = false
              rw [Function.update_noteq hx]), ← wg2Count z']
      · show Function.update s.wg2 z (s.wg2 z - 1) z' = ((Finset.range (spawnedRecs R s z')).filter
          (fun x => Function.update s.recDone z (Function.update (s.recDone z) r true) z' x
            = false)).card
        rw [Function.update_noteq hne, Function.update_noteq hne]
        exact wg2Count z'
    · intro z' x hx
      have hx' : spawnedRecs R s z' ≤ x := hx
      show Function.update s.recDone z (Function.update (s.recDone z) r true) z' x = false
      rcases eq_or_ne z' z with rfl | hne
      · rw [Function.update_same, Function.update_noteq (by omega : x ≠ r)]
        exact recFresh z' x hx'
      · rw [Function.update_noteq hne]
        exact recFresh z' x hx'
    · exact activeLe
    · intro z' hzd
      show Function.update s.wg2 z (s.wg2 z - 1) z' = 0
      rcases eq_or_ne z' z with rfl | hne
      · have h0 := zdoneWg2 z' hzd
        rw [Function.update_same]
        omega
      · rw [Function.update_noteq hne]
        exact zdoneWg2 z' hzd
    · exact doneWg
    · intro p
      obtain ⟨p1, p2⟩ := p
      show Multiset.count (p1, p2) (((z, r) :: s.log : List (Nat × Nat)) : Multiset (Nat × Nat)) =
        if Function.update s.recDone z (Function.update (s.recDone z) r true) p1 p2 = true
        then 1 else 0
      rw [← Multiset.cons_coe, Multiset.count_cons]
      rcases eq_or_ne (p1, p2) ((z, r) : Nat × Nat) with heq | hne
      · injection heq with h1 h2
        subst h1
        subst h2
        simp [logCount (p1, p2), hrd, Function.update_same]
      · have hupd : Function.update s.recDone z (Function.update (s.recDone z) r true) p1 p2 =
            s.recDone p1 p2 := by
          by_cases h1 : p1 = z
          · subst h1
            have h2 : p2 ≠ r := by
              intro h2
              subst h2
              exact hne rfl
            rw [Function.update_same, Function.update_noteq h2]
          · rw [Function.update_noteq h1]
        rw [hupd]
        simp [hne, logCount (p1, p2)]

/-- Every reachable dispatcher state satisfies the invariant. -/
lemma reachable_dinv {Z : Nat} {R : Nat → Nat} {s : DState}
    (h : Reachable Z R s) : DInv Z R s := by
  induction h with
  | init => exact dinv_init Z R
  | step _ hstep ih => exact dinv_step ih hstep

/-- In an invariant state, a zone unit that has run `wg.Done()` has seen
all its record units finish. -/
lemma zdone_recs {Z : Nat} {R : Nat → Nat} {s : DState} (hInv : DInv Z R s)
    {z : Nat} (hz : s.zoneSt z = .zdone) : ∀ r, r < R z → s.recDone z r = true := by
  intro r hrlt
  have hcount := hInv.wg2Count z
  rw [hInv.zdoneWg2 z hz] at hcount
  have hsrz : spawnedRecs R s z = R z := by simp [spawnedRecs, hz]
  rw [hsrz] at hcount
  have hempty := Finset.card_eq_zero.1 hcount.symm
  have hforall := Finset.filter_eq_empty_iff.1 hempty
  have hmem := hforall (Finset.mem_range.2 hrlt)
  rcases hb : s.recDone z r with _ | _
  · exact absurd hb hmem
  · rfl

/-- In an invariant state where the main unit has returned from
`wg.Wait()`, every dispatched zone unit is done. -/
lemma done_zones {Z : Nat} {R : Nat → Nat} {s : DState} (hInv : DInv Z R s)
    (hd : s.mainPC = .done) : ∀ z, z < Z → s.zoneSt z = .zdone := by
  intro z hzlt
  have hsz : spawnedZones Z s = Z := by simp [spawnedZones, hd]
  have hw0 : s.wg = 0 := hInv.doneWg hd
  have hcount := hInv.wgCount
  rw [hw0, hsz] at hcount
  have hempty := Finset.card_eq_zero.1 hcount.symm
  have hforall := Finset.filter_eq_empty_iff.1 hempty
  have hmem := hforall (Finset.mem_range.2 hzlt)
  exact not_not.1 hmem

/-- In an invariant state, a zone never spawns more than its R z record
units. -/
lemma spawnedRecs_le {Z : Nat} {R : Nat → Nat} {s : DState} (hInv : DInv Z R s)
    (z : Nat) : spawnedRecs R s z ≤ R z := by
  rcases hzs : s.zoneSt z with _ | k | _ | _
  · simp [spawnedRecs, hzs]
  · have hk := hInv.activeLe z k hzs
    simp [spawnedRecs, hzs, hk]
  · simp [spawnedRecs, hzs]
  · simp [spawnedRecs, hzs]

/-- In an invariant state with the main unit done, the sink holds exactly
one entry for each dispatched (zone, record) pair and nothing else. -/
lemma done_log_count {Z : Nat} {R : Nat → Nat} {s : DState} (hInv : DInv Z R s)
    (hd : s.mainPC = .done) (p : Nat × Nat) :
    Multiset.count p (s.log : Multiset (Nat × Nat)) =
      if p.1 < Z ∧ p.2 < R p.1 then 1 else 0 := by
  rw [hInv.logCount p]
  by_cases hin : p.1 < Z ∧ p.2 < R p.1
  · rw [if_pos hin]
    have hzd := done_zones hInv hd p.1 hin.1
    rw [zdone_recs hInv hzd p.2 hin.2]
    rfl
  · rw [if_neg hin]
    have hfalse : s.recDone p.1 p.2 = false := by
      by_cases hA : p.1 < Z
      · have hsle := spawnedRecs_le hInv p.1
        exact hInv.recFresh p.1 p.2 (by omega)
      · have hsz : spawnedZones Z s = Z := by simp [spawnedZones, hd]
        have hun : s.zoneSt p.1 = .unspawned := hInv.zoneFresh p.1 (by omega)
        have h0 : spawnedRecs R s p.1 = 0 := by simp [spawnedRecs, hun]
        exact hInv.recFresh p.1 p.2 (by omega)
    rw [hfalse]
    rfl

/-- C2: the scan run joins at two levels. In every reachable dispatcher
state, a zone unit that has completed (run `wg.Done()`) has seen every
record unit it spawned complete; and when the whole run has completed (the
main unit is past `wg.Wait()`), every dispatched zone unit and every
record unit spawned under it has completed — for every interleaving, and
independently of what the individual units reported. -/
theorem C2_two_level_join (Z : Nat) (R : Nat → Nat) (s : DState)
    (h : Reachable Z R s) :
    (∀ z, s.zoneSt z = .zdone → ∀ r, r < R z → s.recDone z r = true) ∧
    (s.mainPC = .done →
      ∀ z, z < Z → s.zoneSt z = .zdone ∧ ∀ r, r < R z → s.recDone z r = true) := by
  have hInv := reachable_dinv h
  refine ⟨fun z hz => zdone_recs hInv hz, fun hd z hzlt => ?_⟩
  have hzd := done_zones hInv hd z hzlt
  exact ⟨hzd, zdone_recs hInv hzd⟩

/-- A complete demonstration run of the dispatcher over one zone holding
one record: its final state is reachable, the main unit is done, and the
sink holds exactly the one record unit's entry. -/
lemma demo_run (Z : Nat) (R : Nat → Nat) (hZ : Z = 1) (hR : R 0 = 1) :
    ∃ s, Reachable Z R s ∧ s.mainPC = .done ∧ s.log = [(0, 0)] := by
  subst hZ
  have h0 : Reachable 1 R initState := .init
  have h1 := h0.step (Step.mainSpawn initState 0 rfl Nat.one_pos)
  have h2 := h1.step (Step.mainToWait _ rfl)
  have h3 := h2.step (Step.zoneSpawn _ 0 0 (by simp [initState, Function.update_same])
    (hR ▸ Nat.one_pos))
  have h4 := h3.step (Step.zoneToWait _ 0 (by simp [initState, Function.update_same, hR]))
  have h5 := h4.step (Step.recFinish _ 0 0
    (by simp [spawnedRecs, initState, Function.update_same, hR]) rfl)
  have h6 := h5.step (Step.zoneFinish _ 0 (by simp [initState, Function.update_same])
    (by simp [initState, Function.update_same]))
  have h7 := h6.step (Step.mainFinish _ rfl (by simp [initState, Function.update_same]))
  exact ⟨_, h7, rfl, rfl⟩

/-- C2 witness: a concrete complete run over one zone with one record, at
which the join theorem applies. -/
theorem C2_two_level_join_witness :
    ∃ s, Reachable 1 (fun _ => 1) s ∧ s.mainPC = .done ∧ s.zoneSt 0 = .zdone ∧
      s.recDone 0 0 = true := by
  obtain ⟨s, hs, hd, _⟩ := demo_run 1 (fun _ => 1) rfl rfl
  obtain ⟨hzd, hrd⟩ := (C2_two_level_join 1 (fun _ => 1) s hs).2 hd 0 Nat.one_pos
  exact ⟨s, hs, hd, hzd, hrd 0 Nat.one_pos⟩

/-- The zones of a fixture that the dispatcher actually dispatches. -/
def machZones (fx : ProfileFixture) : List HostedZone :=
  dispatchedZones (match fx.zonesResult with | .ok zs => zs | .error _ => [])

/-- The record names listed for one zone of the fixture (empty on
pagination failure, exactly as `checkHostedZone` proceeds). -/
def zoneRecordNames (fx : ProfileFixture) (zone : HostedZone) : List String :=
  ((match fx.records zone.id with
    | .ok rs => rs
    | .error _ => []) : List ResourceRecordSet).map (fun r => r.name)

/-- Number of zone units the fixture dispatches. -/
def machZ (fx : ProfileFixture) : Nat := (machZones fx).length

/-- Number of record units dispatched within zone index z. -/
def machR (fx : ProfileFixture) (z : Nat) : Nat :=
  ((machZones fx).get? z).elim 0 (fun zone => (zoneRecordNames fx zone).length)

/-- The finding that record unit (z, r) emits: a pure function of the
fixture (same zones, same record sets, same fingerprint data). -/
def emissionOf (fpMatch : String → Fingerprints → Bool) (verbose : Bool)
    (fx : ProfileFixture) (p : Nat × Nat) : List LogRecord :=
  ((machZones fx).get? p.1).elim []
    (fun zone => ((zoneRecordNames fx zone).get? p.2).elim []
      (fun subdomain => checkRecordSet fpMatch verbose (fx.config.getD []) subdomain))

/-- C9: two complete runs of the scan dispatcher over the same unchanged
fixture (same zones, same record sets, same fingerprint data) emit the
same multiset of findings, whichever interleavings the two runs took; only
the order of the two sinks may differ. -/
theorem C9_idempotent_multiset (fpMatch : String → Fingerprints → Bool) (verbose : Bool)
    (fx : ProfileFixture) (s1 s2 : DState)
    (h1 : Reachable (machZ fx) (machR fx) s1) (hd1 : s1.mainPC = .done)
    (h2 : Reachable (machZ fx) (machR fx) s2) (hd2 : s2.mainPC = .done) :
    Multiset.map (emissionOf fpMatch verbose fx) (s1.log : Multiset (Nat × Nat)) =
      Multiset.map (emissionOf fpMatch verbose fx) (s2.log : Multiset (Nat × Nat)) := by
  have hlog : (s1.log : Multiset (Nat × Nat)) = (s2.log : Multiset (Nat × Nat)) := by
    refine Multiset.ext.2 ?_
    intro p
    rw [done_log_count (reachable_dinv h1) hd1 p, done_log_count (reachable_dinv h2) hd2 p]
  rw [hlog]

/-- Demonstration zone: public, one CNAME record. -/
def zoneA : HostedZone := ⟨"ZA", "a-zone.example.com.", false⟩

/-- Demonstration zone whose record listing will fail. -/
def zoneB : HostedZone := ⟨"ZB", "b-zone.example.com.", false⟩

/-- Demonstration zone: public, one CNAME record. -/
def zoneC : HostedZone := ⟨"ZC", "c-zone.example.com.", false⟩

/-- A private zone. -/
def zoneP : HostedZone := ⟨"ZP", "corp.internal.", true⟩

/-- CNAME record of zoneA. -/
def recA : ResourceRecordSet := ⟨"app.a-zone.example.com.", "CNAME", none⟩

/-- CNAME record of zoneC. -/
def recC : ResourceRecordSet := ⟨"app.c-zone.example.com.", "CNAME", none⟩

/-- A fingerprint signature for concrete runs. -/
def fpHeroku : Fingerprints := ⟨"Heroku", "herokudns"⟩

/-- Oracle matcher that fires on every hostname (the matching test is
opaque; this instantiates it for concrete evaluation). -/
def matchAll : String → Fingerprints → Bool := fun _ _ => true

/-- Oracle matcher that never fires. -/
def matchNone : String → Fingerprints → Bool := fun _ _ => false

/-- Fixture with one public zone holding one CNAME record. -/
def fxDemo : ProfileFixture := ⟨.ok [zoneA], fun _ => .ok [recA], some [fpHeroku]⟩

/-- C9 witness: the idempotence theorem applied at a complete concrete run
of the one-zone one-record fixture. -/
theorem C9_idempotent_multiset_witness :
    ∃ s, Reachable (machZ fxDemo) (machR fxDemo) s ∧ s.mainPC = .done ∧
      Multiset.map (emissionOf matchAll false fxDemo) (s.log : Multiset (Nat × Nat)) =
        Multiset.map (emissionOf matchAll false fxDemo) (s.log : Multiset (Nat × Nat)) := by
  obtain ⟨s, hs, hd, _⟩ := demo_run (machZ fxDemo) (machR fxDemo) (by decide) (by decide)
  exact ⟨s, hs, hd, C9_idempotent_multiset matchAll false fxDemo s s hs hd hs hd⟩

/-- C3 counterexample: with a matching signature the scanner reports the
vulnerable finding at INFO level (`log.Infof`, main.go:428), not at
warning level as the claim states; the single emitted record is shown
whole and carries no warn-level record. -/
theorem C3_counterexample :
    checkRecordSet matchAll false [fpHeroku] "app.a-zone.example.com." =
      [⟨.info, "app.a-zone.example.com is pointing to a vulnerable heroku service.\n"⟩] ∧
    ∀ rec ∈ checkRecordSet matchAll false [fpHeroku] "app.a-zone.example.com.",
      rec.level ≠ .warn := by
  decide

/-- C3 (amended): for every finding of `checkRecordSet`: when the Oracle
matched a service, a single INFO-level record naming the dot-trimmed
subdomain and the lowercased matched service is emitted; when no service
matched and verbose is false, nothing is emitted; when no service matched
and verbose is true, a single debug-level "ok" record is emitted. -/
theorem C3_reporting (fpMatch : String → Fingerprints → Bool) (verbose : Bool)
    (fingerprints : List Fingerprints) (subdomain : String) :
    (identify fpMatch (trimSuffix subdomain ".") fingerprints ≠ "" →
      checkRecordSet fpMatch verbose fingerprints subdomain =
        [⟨.info, trimSuffix subdomain "." ++ " is pointing to a vulnerable " ++
          lowerStr (identify fpMatch (trimSuffix subdomain ".") fingerprints) ++
          " service.\n"⟩]) ∧
    (identify fpMatch (trimSuffix subdomain ".") fingerprints = "" → verbose = false →
      checkRecordSet fpMatch verbose fingerprints subdomain = []) ∧
    (identify fpMatch (trimSuffix subdomain ".") fingerprints = "" → verbose = true →
      checkRecordSet fpMatch verbose fingerprints subdomain =
        [⟨.debug, subdomain ++ " is ok\n"⟩]) := by
  refine ⟨?_, ?_, ?_⟩
  · intro h1
    simp [checkRecordSet, h1]
  · intro h1 h2
    simp [checkRecordSet, h1, h2]
  · intro h1 h2
    simp [checkRecordSet, h1, h2]

/-- C3 witness: the amended reporting theorem applied at a concrete
vulnerable record. -/
theorem C3_reporting_witness :
    identify matchAll (trimSuffix "app.a-zone.example.com." ".") [fpHeroku] ≠ "" ∧
    checkRecordSet matchAll false [fpHeroku] "app.a-zone.example.com." =
      [⟨.info, "app.a-zone.example.com is pointing to a vulnerable heroku service.\n"⟩] := by
  refine ⟨by decide, ?_⟩
  have h := (C3_reporting matchAll false [fpHeroku] "app.a-zone.example.com.").1 (by decide)
  rw [h]
  decide

/-- Fixture for the containment scenario: zones A and C list fine and each
holds one CNAME record; zone B's record listing fails. -/
def fxABC : ProfileFixture :=
  ⟨.ok [zoneA, zoneB, zoneC],
    fun zid => if zid = "ZB" then .error ⟨"throttled"⟩
      else if zid = "ZA" then .ok [recA] else .ok [recC],
    some [fpHeroku]⟩

/-- C4 counterexample: on fxABC (zone B's listing fails) the run's entire
output is exactly the two findings of zones A and C: no record at any
severity mentions zone B's failure, so the failure is NOT logged
distinguishably as the claim states — the error is bound to `_` at
main.go:403 and discarded. -/
theorem C4_counterexample :
    checkSubdomainTakeovers matchAll false fxABC = .completed
      [⟨.info, "app.a-zone.example.com is pointing to a vulnerable heroku service.\n"⟩,
       ⟨.info, "app.c-zone.example.com is pointing to a vulnerable heroku service.\n"⟩] := by
  decide

/-- C4 (amended): when one zone's record listing fails, the
PaginationError is silently discarded: that zone's unit emits nothing at
all (zero findings and no failure record), the error is not raised to the
run's caller (the run still completes), and sibling zones are scanned and
report their findings exactly as if the failing zone had not been
enumerated. -/
theorem C4_pagination_containment (fpMatch : String → Fingerprints → Bool) (verbose : Bool)
    (fx : ProfileFixture) (zs1 zs2 : List HostedZone) (zone : HostedZone)
    (e : PaginationError) (hz : fx.zonesResult = .ok (zs1 ++ zone :: zs2))
    (hrec : fx.records zone.id = .error e) :
    checkHostedZone fpMatch verbose (fx.records zone.id) fx.config = [] ∧
    checkSubdomainTakeovers fpMatch verbose fx =
      .completed (profileOutput fpMatch verbose fx (zs1 ++ zs2)) := by
  have hzero : checkHostedZone fpMatch verbose (fx.records zone.id) fx.config = [] := by
    rw [hrec]
    rfl
  refine ⟨hzero, ?_⟩
  have hred : checkSubdomainTakeovers fpMatch verbose fx =
      .completed (profileOutput fpMatch verbose fx (zs1 ++ zone :: zs2)) := by
    simp [checkSubdomainTakeovers, hz]
  rw [hred]
  congr 1
  unfold profileOutput dispatchedZones
  rw [List.filter_append, List.filter_append, List.flatMap_append, List.flatMap_append]
  congr 1
  by_cases hp : zone.isPrivate
  · simp [List.filter_cons, hp]
  · simp [List.filter_cons, hp, hzero]

/-- C4 witness: the containment theorem applied at fxABC with zone B the
failing zone. -/
theorem C4_pagination_containment_witness :
    fxABC.zonesResult = .ok ([zoneA] ++ zoneB :: [zoneC]) ∧
    fxABC.records zoneB.id = .error ⟨"throttled"⟩ ∧
    checkHostedZone matchAll false (fxABC.records zoneB.id) fxABC.config = [] := by
  refine ⟨rfl, rfl, (C4_pagination_containment matchAll false fxABC [zoneA] [zoneC]
    zoneB ⟨"throttled"⟩ rfl rfl).1⟩

/-- A profile fixture whose zone enumeration fails. -/
def fxBad : ProfileFixture := ⟨.error ⟨"enum failed"⟩, fun _ => .ok [], none⟩

/-- The records one profile's run prints, whatever its outcome. -/
def profileRunOut (fpMatch : String → Fingerprints → Bool) (verbose : Bool)
    (fx : ProfileFixture) : List LogRecord :=
  match checkSubdomainTakeovers fpMatch verbose fx with
  | .completed out => out
  | .fatal out => out

/-- C5 counterexample: with profiles [bad, good] the run aborts inside the
first profile — `logrus.Fatal` exits the whole process — so the second
profile contributes nothing, although scanned on its own it reports a
finding; the exit status is 1. This contradicts the claim that other
profiles in the same invocation are unaffected. -/
theorem C5_counterexample :
    runMain matchAll false [fxBad, fxDemo] = ([⟨.fatal, "enum failed"⟩], 1) ∧
    runMain matchAll false [fxDemo] =
      ([⟨.info, "app.a-zone.example.com is pointing to a vulnerable heroku service.\n"⟩], 0) := by
  decide

/-- C5 (amended): an EnumerationError makes `logrus.Fatal` terminate the
whole process with exit status 1: the failing profile produces no
findings, profiles listed before it are unaffected, profiles after it are
never scanned, and the fatal record carries the error. -/
theorem C5_enumeration_fatal (fpMatch : String → Fingerprints → Bool) (verbose : Bool)
    (fxs1 fxs2 : List ProfileFixture) (fx : ProfileFixture) (e : EnumerationError)
    (hok : ∀ f ∈ fxs1, ∃ zs, f.zonesResult = .ok zs)
    (hbad : fx.zonesResult = .error e) :
    runMain fpMatch verbose (fxs1 ++ fx :: fxs2) =
      (fxs1.flatMap (profileRunOut fpMatch verbose) ++ [⟨.fatal, e.msg⟩], 1) := by
  induction fxs1 with
  | nil =>
    show runMain fpMatch verbose (fx :: fxs2) = _
    simp [runMain, checkSubdomainTakeovers, hbad]
  | cons f fxs1 ih =>
    obtain ⟨zs, hzs⟩ := hok f (List.mem_cons_self f fxs1)
    have hcomp : checkSubdomainTakeovers fpMatch verbose f =
        .completed (profileOutput fpMatch verbose f zs) := by
      simp [checkSubdomainTakeovers, hzs]
    have hout : profileRunOut fpMatch verbose f = profileOutput fpMatch verbose f zs := by
      simp [profileRunOut, hcomp]
    have ih' := ih (fun g hg => hok g (List.mem_cons_of_mem f hg))
    show runMain fpMatch verbose (f :: (fxs1 ++ fx :: fxs2)) = _
    simp [runMain, hcomp, ih', hout, List.flatMap_cons, List.append_assoc]

/-- C5 witness: the amended termination theorem applied at the concrete
profile list [good, bad]. -/
theorem C5_enumeration_fatal_witness :
    fxBad.zonesResult = .error ⟨"enum failed"⟩ ∧
    runMain matchAll false ([fxDemo] ++ fxBad :: []) =
      ([fxDemo].flatMap (profileRunOut matchAll false) ++ [⟨.fatal, "enum failed"⟩], 1) := by
  refine ⟨rfl, C5_enumeration_fatal matchAll false [fxDemo] [] fxBad ⟨"enum failed"⟩ ?_ rfl⟩
  intro f hf
  rw [List.mem_singleton] at hf
  subst hf
  exact ⟨[zoneA], rfl⟩

/-- C6: the code's `listHostedZones` issues exactly one ListHostedZones
call and never follows the zone-listing pagination: with two zones in the
account and a provider page size of 1 the provider signals truncation, yet
only the first zone is returned — zoneB, though public, is never seen by
the scan, contradicting the claim that every zone is returned. -/
theorem C6_zone_pagination_dropped :
    (serveHostedZones [zoneA, zoneB] 1).isTruncated = true ∧
    listHostedZones [zoneA, zoneB] 1 = [zoneA] ∧
    zoneB ∉ listHostedZones [zoneA, zoneB] 1 ∧ zoneB.isPrivate = false := by
  decide

/-- Fixture whose enumeration holds a public and a private zone. -/
def fxP : ProfileFixture := ⟨.ok [zoneA, zoneP], fun _ => .ok [recA], some [fpHeroku]⟩

/-- C7: the zones dispatched are exactly the enumerated zones whose
isPrivate flag is false; a private zone gets no unit of work, and the
run's output over an enumeration containing a private zone equals the
output with that zone absent — so a private zone yields zero findings,
whatever the verbosity. -/
theorem C7_private_zones_skipped (fpMatch : String → Fingerprints → Bool) (verbose : Bool)
    (fx : ProfileFixture) (zs1 zs2 : List HostedZone) (zone : HostedZone)
    (hz : fx.zonesResult = .ok (zs1 ++ zone :: zs2)) (hpriv : zone.isPrivate = true) :
    (∀ (zs : List HostedZone) (w : HostedZone),
      w ∈ dispatchedZones zs ↔ w ∈ zs ∧ w.isPrivate = false) ∧
    zone ∉ dispatchedZones (zs1 ++ zone :: zs2) ∧
    checkSubdomainTakeovers fpMatch verbose fx =
      .completed (profileOutput fpMatch verbose fx (zs1 ++ zs2)) := by
  have hmem : ∀ (zs : List HostedZone) (w : HostedZone),
      w ∈ dispatchedZones zs ↔ w ∈ zs ∧ w.isPrivate = false := by
    intro zs w
    simp [dispatchedZones, List.mem_filter]
  refine ⟨hmem, ?_, ?_⟩
  · intro hin
    have := ((hmem _ zone).1 hin).2
    rw [hpriv] at this
    cases this
  · have hred : checkSubdomainTakeovers fpMatch verbose fx =
        .completed (profileOutput fpMatch verbose fx (zs1 ++ zone :: zs2)) := by
      simp [checkSubdomainTakeovers, hz]
    rw [hred]
    congr 1
    unfold profileOutput dispatchedZones
    rw [List.filter_append, List.filter_append]
    simp [List.filter_cons, hpriv]

/-- C7 witness: the invariant applied at the concrete fixture holding the
private zone corp.internal, with verbose on. -/
theorem C7_private_zones_skipped_witness :
    zoneP.isPrivate = true ∧
    zoneP ∉ dispatchedZones ([zoneA] ++ zoneP :: []) ∧
    checkSubdomainTakeovers matchAll true fxP =
      .completed (profileOutput matchAll true fxP ([zoneA] ++ [])) := by
  have h := C7_private_zones_skipped matchAll true fxP [zoneA] [] zoneP rfl rfl
  exact ⟨rfl, h.2.1, h.2.2⟩

/-- C8: every record set the paginator returns — hence every record whose
name the dispatcher hands to a record unit and on to the Oracle — has
record type CNAME: the filter at main.go:463-467 discards every other
type before dispatch. -/
theorem C8_only_cname_dispatched (zoneRecords : List ResourceRecordSet)
    (pageSize fuel : Nat) (out : List ResourceRecordSet)
    (h : listRecordSets zoneRecords pageSize fuel = some out) :
    ∀ r ∈ out, r.rtype = "CNAME" := by
  intro r hr
  unfold listRecordSets at h
  dsimp only at h
  rcases hl : listRecordSetsLoop zoneRecords pageSize fuel
      (serveRecordSets zoneRecords pageSize ⟨none, none, none⟩)
      (serveRecordSets zoneRecords pageSize ⟨none, none, none⟩).resourceRecordSets with _ | l
  · rw [hl] at h
    cases h
  · rw [hl] at h
    simp only [Option.map_some'] at h
    obtain rfl := Option.some.inj h
    have hp := List.of_mem_filter hr
    simpa using hp
/-- C8 witness: a concrete zone holding one CNAME and one A record; the
paginator returns only the CNAME record. -/
theorem C8_only_cname_dispatched_witness :
    listRecordSets [recA, ⟨"www.a-zone.example.com.", "A", none⟩] 10 1 = some [recA] ∧
    recA.rtype = "CNAME" := by
  refine ⟨by decide, ?_⟩
  exact C8_only_cname_dispatched [recA, ⟨"www.a-zone.example.com.", "A", none⟩] 10 1
    [recA] (by decide) recA (by decide)

/-- C10 helper shape: with an empty signature list the Oracle matches
nothing, so `checkRecordSet` emits the clean-record output. -/
lemma checkRecordSet_empty (fpMatch : String → Fingerprints → Bool) (verbose : Bool)
    (subdomain : String) :
    checkRecordSet fpMatch verbose [] subdomain =
      if verbose then [⟨.debug, subdomain ++ " is ok\n"⟩] else [] := by
  simp [checkRecordSet, identify]

/-- C10: when reading or parsing ./fingerprints.json fails (the code
discards both errors at main.go:408-409, leaving a nil slice, modelled by
config = none), `checkHostedZone` proceeds silently: every successfully
listed CNAME record is classified not vulnerable (no service can match
from zero signatures), no failure record of any severity is emitted, and
the zone's output is exactly that of a clean zone — nothing without
verbose, one debug "ok" line per record with verbose — indistinguishable
from a zone whose records are all clean. -/
theorem C10_fingerprint_failure_silent (fpMatch : String → Fingerprints → Bool)
    (verbose : Bool) (recordsResult : Except PaginationError (List ResourceRecordSet))
    (rs : List ResourceRecordSet) (hrs : recordsResult = .ok rs) :
    checkHostedZone fpMatch verbose recordsResult none =
      (if verbose then rs.map (fun r => ⟨.debug, r.name ++ " is ok\n"⟩) else []) ∧
    checkHostedZone fpMatch verbose recordsResult none =
      checkHostedZone fpMatch verbose recordsResult (some []) ∧
    (∀ r ∈ rs, identify fpMatch (trimSuffix r.name ".") [] = "") ∧
    ∀ rec ∈ checkHostedZone fpMatch verbose recordsResult none, rec.level = .debug := by
  subst hrs
  have hmain : checkHostedZone fpMatch verbose (.ok rs) none =
      (if verbose then rs.map (fun r => ⟨.debug, r.name ++ " is ok\n"⟩) else []) := by
    unfold checkHostedZone
    dsimp only [Option.getD]
    induction rs with
    | nil => cases verbose <;> simp
    | cons a l ih =>
      rw [List.flatMap_cons, ih, checkRecordSet_empty]
      cases verbose <;> simp
  refine ⟨hmain, ?_, ?_, ?_⟩
  · rfl
  · intro r _
    simp [identify]
  · intro rec hrec
    rw [hmain] at hrec
    rcases verbose with _ | _
    · simp at hrec
    · simp only [if_pos rfl] at hrec
      obtain ⟨r, _, rfl⟩ := List.mem_map.1 hrec
      rfl

/-- C10 witness: the silent-failure theorem applied with one listed CNAME
record and verbose on: the only output is the debug "ok" line. -/
theorem C10_fingerprint_failure_silent_witness :
    checkHostedZone matchAll true (.ok [recA]) none =
      [⟨.debug, "app.a-zone.example.com. is ok\n"⟩] := by
  have h := (C10_fingerprint_failure_silent matchAll true (.ok [recA]) [recA] rfl).1
  rw [h]
  decide

/-- First record of the C1 fixture: a single CNAME ahead of the group. -/
def recA0 : ResourceRecordSet := ⟨"a.", "CNAME", none⟩

/-- Second record: CNAME with routing identifier "1". -/
def recB1 : ResourceRecordSet := ⟨"b.", "CNAME", some "1"⟩

/-- Third record: same name and type as recB1, routing identifier "2". -/
def recB2 : ResourceRecordSet := ⟨"b.", "CNAME", some "2"⟩

/-- The C1 zone fixture, sorted by (name, type, identifier): the page
boundary at page size 2 falls between recB1 and recB2, which share name
and type and differ only in the routing identifier. -/
def zoneRecordsFix : List ResourceRecordSet := [recA0, recB1, recB2]

/-- C1: on a zone where the page boundary splits two record sets sharing a
name and type but differing routing identifier, the code's paginator —
which resubmits only `StartRecordName` (main.go:451-453), dropping the
type and routing-identifier continuation fields — restarts inside the
group and returns recB1 twice, so its output is NOT the duplicate-free
union of the pages the claim states; the spec-modelled paginator that
resubmits the full cursor returns exactly the union. -/
theorem C1_cursor_bug_eval :
    listRecordSets zoneRecordsFix 2 5 = some [recA0, recB1, recB1, recB2] ∧
    (listRecordSets zoneRecordsFix 2 5).elim 0 (fun l => l.count recB1) = 2 ∧
    listCNAMERecordsSpec zoneRecordsFix 2 5 = some [recA0, recB1, recB2] ∧
    (listCNAMERecordsSpec zoneRecordsFix 2 5).elim 0 (fun l => l.count recB1) = 1 := by
  decide
